import Mathlib

/-!
Verification development for src/climate.c (NOAA tab-delimited climate
data aggregator).

Shallow embedding conventions:
- C long double values are modelled as rationals.
- C signed integer values are modelled as Int, unsigned long as Nat.
- The file/IO layer is modelled as lists of line strings; fallible or
  undefined operations return Option, with none standing for the source
  reading uninitialized memory.
-/

/-- The struct climate_info of climate.c (lines 74-87), field for field.
The three-byte code array holds the two copied characters, modelled as the
copied string. -/
structure climate_info where
  code : String
  num_records : Nat
  temp : ℚ
  humidity : ℚ
  max_temp : ℚ
  max_temp_date : ℤ
  min_temp : ℚ
  min_temp_date : ℤ
  lightning_strikes : ℤ
  snow : ℤ
  cloud_cover : ℚ
  pressure : ℚ
deriving DecidableEq

/-- NUM_STATES (climate.c line 72): the fixed capacity of the state table. -/
def NUM_STATES : Nat := 50

/-- Truncation toward zero of a rational, modelling the C conversion of a
long double value to a signed integer type. -/
def ratTrunc (q : ℚ) : ℤ := q.num.tdiv (q.den : ℤ)

/-- Value of a digit string, most significant digit first. -/
def digitsVal (cs : List Char) : Nat := cs.foldl (fun n c => 10 * n + (c.toNat - 48)) 0

/-- Modelled after C atof on the decimal formats of the TDV fields: optional
leading spaces, optional sign, integer digits, optional dot and fraction
digits; conversion stops at the first character that fits neither, and an
empty conversion yields zero. -/
def atofQ (s : String) : ℚ :=
  let cs0 := s.toList.dropWhile (fun c => c = ' ')
  let neg : Bool := cs0.headD ' ' = '-'
  let cs1 := if neg || (cs0.headD ' ' = '+') then cs0.tail else cs0
  let ip := cs1.takeWhile Char.isDigit
  let rest := cs1.dropWhile Char.isDigit
  let fp := if rest.headD ' ' = '.' then rest.tail.takeWhile Char.isDigit else []
  let mag : ℚ := (digitsVal ip : ℚ) + (digitsVal fp : ℚ) / ((10 ^ fp.length : ℕ) : ℚ)
  if neg then -mag else mag

/-- The delimiter set of the strtok calls in analyze_file (line 137): tab
and newline. -/
def isDelim (c : Char) : Bool := c = '\t' || c = '\n'

/-- Accumulator-style model of repeated strtok(NULL, "\t\n"): maximal runs
of non-delimiter characters, with runs of delimiters skipped. -/
def strtokAux : List Char → List Char → List String
  | [], cur => if cur.isEmpty then [] else [String.mk cur.reverse]
  | c :: cs, cur =>
    if isDelim c then
      if cur.isEmpty then strtokAux cs []
      else String.mk cur.reverse :: strtokAux cs []
    else strtokAux cs (c :: cur)

/-- All tokens of one input line under strtok(line, "\t\n"). -/
def splitTDV (line : String) : List String := strtokAux line.toList []

/-- The token-collection loop of analyze_file (lines 140-148): it stores
tokens into tokenList while token is non-null and index is below 9, so at
most the first nine tokens of the line are kept. -/
def collectTokens (line : String) : List String := (splitTDV line).take 9

/-- The per-line record built in analyze_file (lines 150-163): a fresh
climate_info whose fields are decoded from the token list.  strncpy copies
the first two bytes of token 0; the timestamp is atof of token 1 divided by
1000 and truncated to a long int; temp, max_temp and min_temp are all set
to atof of token 8 converted from Kelvin to Fahrenheit. -/
def mkState (ts : List String) : climate_info :=
  { code := (ts.getD 0 "").take 2
    num_records := 1
    temp := atofQ (ts.getD 8 "") * 9 / 5 - 45967 / 100
    humidity := atofQ (ts.getD 3 "")
    max_temp := atofQ (ts.getD 8 "") * 9 / 5 - 45967 / 100
    max_temp_date := ratTrunc (atofQ (ts.getD 1 "") / 1000)
    min_temp := atofQ (ts.getD 8 "") * 9 / 5 - 45967 / 100
    min_temp_date := ratTrunc (atofQ (ts.getD 1 "") / 1000)
    lightning_strikes := ratTrunc (atofQ (ts.getD 6 ""))
    snow := ratTrunc (atofQ (ts.getD 4 ""))
    cloud_cover := atofQ (ts.getD 5 "")
    pressure := atofQ (ts.getD 7 "") }

/-- Decoding of a collected token list.  When fewer than nine tokens were
collected, analyze_file still indexes tokenList up to index 8 (lines
152-162), reading uninitialized pointers; that undefined behavior is
modelled as none. -/
def decodeTokens (ts : List String) : Option climate_info :=
  if ts.length < 9 then none else some (mkState ts)

/-- Processing of one line of input: tokenize, then decode. -/
def decodeLine (line : String) : Option climate_info :=
  decodeTokens (collectTokens line)

/-- The in-place sum updates of analyze_file (lines 176-182). -/
def updateSums (s r : climate_info) : climate_info :=
  { s with
    num_records := s.num_records + 1
    humidity := s.humidity + r.humidity
    snow := s.snow + r.snow
    cloud_cover := s.cloud_cover + r.cloud_cover
    lightning_strikes := s.lightning_strikes + r.lightning_strikes
    pressure := s.pressure + r.pressure
    temp := s.temp + r.temp }

/-- The max-temperature check of analyze_file (lines 184-188). -/
def updateMax (s r : climate_info) : climate_info :=
  if s.max_temp ≤ r.temp then
    { s with max_temp := r.temp, max_temp_date := r.max_temp_date }
  else s

/-- The min-temperature check of analyze_file (lines 190-194). -/
def updateMin (s r : climate_info) : climate_info :=
  if s.min_temp ≥ r.temp then
    { s with min_temp := r.temp, min_temp_date := r.min_temp_date }
  else s

/-- The full update of an existing accumulator by a new record, in source
order: running sums, then the max check, then the min check (lines
175-195). -/
def updateInfo (s r : climate_info) : climate_info :=
  updateMin (updateMax (updateSums s r) r) r

/-- The insertion loop of analyze_file (lines 167-197) on the states array:
scan slots left to right; a NULL slot receives the new record, a slot whose
code matches is updated in place; if neither happens within the array the
record is silently dropped. -/
def insertRecord : List (Option climate_info) → climate_info → List (Option climate_info)
  | [], _ => []
  | none :: rest, r => some r :: rest
  | some s :: rest, r =>
    if s.code = r.code then some (updateInfo s r) :: rest
    else some s :: insertRecord rest r

/-- The initial states array of main (line 102): NUM_STATES null slots. -/
def initStates : List (Option climate_info) := List.replicate NUM_STATES none

/-- Folding a list of already-decoded records through the insertion loop. -/
def runRecords (recs : List climate_info) : List (Option climate_info) :=
  recs.foldl insertRecord initStates

/-- The state codes present in the states array, in slot order, as
print_report walks them (lines 208-213). -/
def statesCodes (sts : List (Option climate_info)) : List String :=
  sts.filterMap (fun o => o.map climate_info.code)

/-- Folding further records into one accumulator. -/
def foldInfo (r : climate_info) (rs : List climate_info) : climate_info :=
  rs.foldl updateInfo r

/-- Processing of one line against the states array; none propagates the
undefined behavior of a malformed line. -/
def consumeLine (sts : List (Option climate_info)) (line : String) :
    Option (List (Option climate_info)) :=
  match decodeLine line with
  | none => none
  | some r => some (insertRecord sts r)

/-- The fgets loop of analyze_file over a list of lines. -/
def analyzeLines (sts : List (Option climate_info)) :
    List String → Option (List (Option climate_info))
  | [] => some sts
  | l :: ls =>
    match consumeLine sts l with
    | none => none
    | some sts2 => analyzeLines sts2 ls

/-- The main loop over input files in argument order (lines 105-120): the
lines of all files are streamed, in order, into one states array. -/
def analyzeFiles (files : List (List String)) : Option (List (Option climate_info)) :=
  analyzeLines initStates files.flatten

/-- Decoding a whole list of lines; none as soon as one line is malformed. -/
def decodeAll : List String → Option (List climate_info)
  | [] => some []
  | l :: ls =>
    match decodeLine l, decodeAll ls with
    | some r, some rs => some (r :: rs)
    | _, _ => none

/-- The values print_report emits for one state (lines 219-229): code,
count, the two sum/count averages, the extrema with their dates, the two
counters, and the cloud-cover average.  Pressure is not among them. -/
structure StateReport where
  code : String
  num_records : Nat
  avg_humidity : ℚ
  avg_temp : ℚ
  max_temp : ℚ
  max_temp_date : ℤ
  min_temp : ℚ
  min_temp_date : ℤ
  lightning_strikes : ℤ
  snow : ℤ
  avg_cloud_cover : ℚ
deriving DecidableEq

/-- The per-state block of print_report (lines 219-229). -/
def reportOf (s : climate_info) : StateReport :=
  { code := s.code
    num_records := s.num_records
    avg_humidity := s.humidity / (s.num_records : ℚ)
    avg_temp := s.temp / (s.num_records : ℚ)
    max_temp := s.max_temp
    max_temp_date := s.max_temp_date
    min_temp := s.min_temp
    min_temp_date := s.min_temp_date
    lightning_strikes := s.lightning_strikes
    snow := s.snow
    avg_cloud_cover := s.cloud_cover / (s.num_records : ℚ) }

/-- Specification-side value: the maximum Fahrenheit temperature over an
initial record and the further records folded in. -/
def maxTempOf (r : climate_info) (rs : List climate_info) : ℚ :=
  (rs.map climate_info.temp).foldl max r.temp

/-- Specification-side value: the timestamp of the last record attaining
the maximum temperature (records carry their timestamp in max_temp_date). -/
def lastMaxTs (r : climate_info) (rs : List climate_info) : Option ℤ :=
  (((r :: rs).filter fun x => decide (x.temp = maxTempOf r rs)).getLast?).map
    climate_info.max_temp_date

/-- Specification-side value: the minimum Fahrenheit temperature over an
initial record and the further records folded in. -/
def minTempOf (r : climate_info) (rs : List climate_info) : ℚ :=
  (rs.map climate_info.temp).foldl min r.temp

/-- Specification-side value: the timestamp of the last record attaining
the minimum temperature (records carry their timestamp in min_temp_date). -/
def lastMinTs (r : climate_info) (rs : List climate_info) : Option ℤ :=
  (((r :: rs).filter fun x => decide (x.temp = minTempOf r rs)).getLast?).map
    climate_info.min_temp_date

/-- Specification-side value: first occurrences of codes, given the set of
codes already seen. -/
def firstSeenAux (seen : List String) : List String → List String
  | [] => []
  | c :: cs => if c ∈ seen then firstSeenAux seen cs else c :: firstSeenAux (c :: seen) cs

/-- Specification-side value: the distinct codes of a list in first-seen
(discovery) order. -/
def firstSeen (cs : List String) : List String := firstSeenAux [] cs

/-- A well-formed nine-field input row for a given state code, with zero
numeric fields. -/
def mkRow (c : String) : List String := [c, "0", "g", "0", "0", "0", "0", "0", "0"]

/-- Fifty-one pairwise distinct two-letter state codes. -/
def codes51 : List String :=
  (List.range 51).map fun n => String.mk [Char.ofNat (65 + n / 26), Char.ofNat (65 + n % 26)]

/-- Fifty-one records with pairwise distinct state codes. -/
def recs51 : List climate_info := codes51.map fun c => mkState (mkRow c)

/-- Fifty records with pairwise distinct state codes. -/
def recs50 : List climate_info := (codes51.take 50).map fun c => mkState (mkRow c)

/-! ### Projection lemmas for the accumulator update -/

theorem updateInfo_code (s r : climate_info) : (updateInfo s r).code = s.code := by
  simp only [updateInfo, updateMin, updateMax, updateSums]
  split_ifs <;> rfl

theorem updateInfo_num_records (s r : climate_info) :
    (updateInfo s r).num_records = s.num_records + 1 := by
  simp only [updateInfo, updateMin, updateMax, updateSums]
  split_ifs <;> rfl

theorem updateInfo_humidity (s r : climate_info) :
    (updateInfo s r).humidity = s.humidity + r.humidity := by
  simp only [updateInfo, updateMin, updateMax, updateSums]
  split_ifs <;> rfl

theorem updateInfo_temp (s r : climate_info) :
    (updateInfo s r).temp = s.temp + r.temp := by
  simp only [updateInfo, updateMin, updateMax, updateSums]
  split_ifs <;> rfl

theorem updateInfo_cloud_cover (s r : climate_info) :
    (updateInfo s r).cloud_cover = s.cloud_cover + r.cloud_cover := by
  simp only [updateInfo, updateMin, updateMax, updateSums]
  split_ifs <;> rfl

theorem updateInfo_pressure (s r : climate_info) :
    (updateInfo s r).pressure = s.pressure + r.pressure := by
  simp only [updateInfo, updateMin, updateMax, updateSums]
  split_ifs <;> rfl

theorem updateInfo_max_temp (s r : climate_info) :
    (updateInfo s r).max_temp = if s.max_temp ≤ r.temp then r.temp else s.max_temp := by
  simp only [updateInfo, updateMin, updateMax, updateSums]
  split_ifs <;> rfl

theorem updateInfo_max_temp_date (s r : climate_info) :
    (updateInfo s r).max_temp_date =
      if s.max_temp ≤ r.temp then r.max_temp_date else s.max_temp_date := by
  simp only [updateInfo, updateMin, updateMax, updateSums]
  split_ifs <;> rfl

theorem updateInfo_min_temp (s r : climate_info) :
    (updateInfo s r).min_temp = if s.min_temp ≥ r.temp then r.temp else s.min_temp := by
  simp only [updateInfo, updateMin, updateMax, updateSums]
  split_ifs <;> rfl

theorem updateInfo_min_temp_date (s r : climate_info) :
    (updateInfo s r).min_temp_date =
      if s.min_temp ≥ r.temp then r.min_temp_date else s.min_temp_date := by
  simp only [updateInfo, updateMin, updateMax, updateSums]
  split_ifs <;> rfl

/-! ### Fold lemmas for extremum tracking -/

theorem updateInfo_max_temp_eq_max (s r : climate_info) :
    (updateInfo s r).max_temp = max s.max_temp r.temp := by
  rw [updateInfo_max_temp, max_def]

theorem updateInfo_min_temp_eq_min (s r : climate_info) :
    (updateInfo s r).min_temp = min s.min_temp r.temp := by
  rw [updateInfo_min_temp]
  rcases le_total r.temp s.min_temp with h | h
  · rw [if_pos h, min_eq_right h]
  · by_cases h2 : s.min_temp ≥ r.temp
    · rw [if_pos h2, min_eq_right h2]
    · rw [if_neg h2, min_eq_left h]

theorem le_foldl_max (l : List ℚ) : ∀ a : ℚ, a ≤ l.foldl max a := by
  induction l with
  | nil => intro a; exact le_refl a
  | cons x xs ih =>
    intro a
    rw [List.foldl_cons]
    exact le_trans (le_max_left a x) (ih (max a x))

theorem foldl_max_attained (l : List ℚ) : ∀ a : ℚ, l.foldl max a = a ∨ l.foldl max a ∈ l := by
  induction l with
  | nil => intro a; left; rfl
  | cons x xs ih =>
    intro a
    rw [List.foldl_cons]
    rcases ih (max a x) with h | h
    · rw [h]
      rcases max_choice a x with h2 | h2
      · left; exact h2
      · right; rw [h2]; exact List.mem_cons_self x xs
    · right; exact List.mem_cons_of_mem x h

theorem foldl_min_le (l : List ℚ) : ∀ a : ℚ, l.foldl min a ≤ a := by
  induction l with
  | nil => intro a; exact le_refl a
  | cons x xs ih =>
    intro a
    rw [List.foldl_cons]
    exact le_trans (ih (min a x)) (min_le_left a x)

theorem foldl_min_attained (l : List ℚ) : ∀ a : ℚ, l.foldl min a = a ∨ l.foldl min a ∈ l := by
  induction l with
  | nil => intro a; left; rfl
  | cons x xs ih =>
    intro a
    rw [List.foldl_cons]
    rcases ih (min a x) with h | h
    · rw [h]
      rcases min_choice a x with h2 | h2
      · left; exact h2
      · right; rw [h2]; exact List.mem_cons_self x xs
    · right; exact List.mem_cons_of_mem x h

theorem getLast?_elim_irrel {α β : Type} {l : List α} (h : l ≠ []) (d1 d2 : β) (f : α → β) :
    (l.getLast?).elim d1 f = (l.getLast?).elim d2 f := by
  rw [List.getLast?_eq_getLast_of_ne_nil h]
  rfl

theorem elim_getLast?_cons_of_ne_nil {α β : Type} (x : α) {l : List α} (h : l ≠ [])
    (d : β) (f : α → β) :
    ((x :: l).getLast?).elim d f = (l.getLast?).elim d f := by
  obtain ⟨z, zs, rfl⟩ := List.exists_cons_of_ne_nil h
  rw [List.getLast?_cons_cons]


theorem foldl_updateInfo_max (rs : List climate_info) : ∀ s : climate_info,
    (rs.foldl updateInfo s).max_temp = (rs.map climate_info.temp).foldl max s.max_temp ∧
    (rs.foldl updateInfo s).max_temp_date =
      ((rs.filter fun y =>
          decide (y.temp = (rs.map climate_info.temp).foldl max s.max_temp)).getLast?).elim
        s.max_temp_date climate_info.max_temp_date := by
  induction rs with
  | nil => intro s; exact ⟨rfl, rfl⟩
  | cons x xs ih =>
    intro s
    have hmx : (updateInfo s x).max_temp = max s.max_temp x.temp :=
      updateInfo_max_temp_eq_max s x
    have hM : ((x :: xs).map climate_info.temp).foldl max s.max_temp
        = (xs.map climate_info.temp).foldl max (updateInfo s x).max_temp := by
      rw [List.map_cons, List.foldl_cons, hmx]
    obtain ⟨ih1, ih2⟩ := ih (updateInfo s x)
    refine ⟨?_, ?_⟩
    · rw [List.foldl_cons, ih1, hM]
    · rw [List.foldl_cons, ih2, hM]
      by_cases hfe : (xs.filter fun y =>
          decide (y.temp = (xs.map climate_info.temp).foldl max (updateInfo s x).max_temp)) = []
      · by_cases hx : x.temp = (xs.map climate_info.temp).foldl max (updateInfo s x).max_temp
        · have hfc : ((x :: xs).filter fun y =>
              decide (y.temp = (xs.map climate_info.temp).foldl max (updateInfo s x).max_temp))
              = [x] := by
            rw [List.filter_cons]
            simp [hx, hfe]
          rw [hfe, hfc]
          have hle : s.max_temp ≤ x.temp := by
            have h1 : (updateInfo s x).max_temp
                ≤ (xs.map climate_info.temp).foldl max (updateInfo s x).max_temp :=
              le_foldl_max _ _
            have h2 : s.max_temp ≤ (updateInfo s x).max_temp := by
              rw [hmx]; exact le_max_left _ _
            exact le_trans h2 (le_trans h1 (le_of_eq hx.symm))
          have hdate : (updateInfo s x).max_temp_date = x.max_temp_date := by
            rw [updateInfo_max_temp_date, if_pos hle]
          simp [hdate]
        · have hfc : ((x :: xs).filter fun y =>
              decide (y.temp = (xs.map climate_info.temp).foldl max (updateInfo s x).max_temp))
              = [] := by
            rw [List.filter_cons]
            simp [hx, hfe]
          rw [hfe, hfc]
          have hnle : ¬ s.max_temp ≤ x.temp := by
            intro hle
            rcases foldl_max_attained (xs.map climate_info.temp)
                ((updateInfo s x).max_temp) with h | h
            · apply hx
              rw [h, hmx, max_eq_right hle]
            · obtain ⟨y, hy, hyt⟩ := List.mem_map.mp h
              have := List.filter_eq_nil_iff.mp hfe y hy
              simp [hyt] at this
          have hdate : (updateInfo s x).max_temp_date = s.max_temp_date := by
            rw [updateInfo_max_temp_date, if_neg hnle]
          simp [hdate]
      · by_cases hx : x.temp = (xs.map climate_info.temp).foldl max (updateInfo s x).max_temp
        · have hfc : ((x :: xs).filter fun y =>
              decide (y.temp = (xs.map climate_info.temp).foldl max (updateInfo s x).max_temp))
              = x :: (xs.filter fun y =>
                decide (y.temp = (xs.map climate_info.temp).foldl max (updateInfo s x).max_temp)) := by
            rw [List.filter_cons]
            simp [hx]
          rw [hfc, elim_getLast?_cons_of_ne_nil _ hfe]
          exact getLast?_elim_irrel hfe _ _ _
        · have hfc : ((x :: xs).filter fun y =>
              decide (y.temp = (xs.map climate_info.temp).foldl max (updateInfo s x).max_temp))
              = (xs.filter fun y =>
                decide (y.temp = (xs.map climate_info.temp).foldl max (updateInfo s x).max_temp)) := by
            rw [List.filter_cons]
            simp [hx]
          rw [hfc]
          exact getLast?_elim_irrel hfe _ _ _

theorem foldl_updateInfo_min (rs : List climate_info) : ∀ s : climate_info,
    (rs.foldl updateInfo s).min_temp = (rs.map climate_info.temp).foldl min s.min_temp ∧
    (rs.foldl updateInfo s).min_temp_date =
      ((rs.filter fun y =>
          decide (y.temp = (rs.map climate_info.temp).foldl min s.min_temp)).getLast?).elim
        s.min_temp_date climate_info.min_temp_date := by
  induction rs with
  | nil => intro s; exact ⟨rfl, rfl⟩
  | cons x xs ih =>
    intro s
    have hmn : (updateInfo s x).min_temp = min s.min_temp x.temp :=
      updateInfo_min_temp_eq_min s x
    have hM : ((x :: xs).map climate_info.temp).foldl min s.min_temp
        = (xs.map climate_info.temp).foldl min (updateInfo s x).min_temp := by
      rw [List.map_cons, List.foldl_cons, hmn]
    obtain ⟨ih1, ih2⟩ := ih (updateInfo s x)
    refine ⟨?_, ?_⟩
    · rw [List.foldl_cons, ih1, hM]
    · rw [List.foldl_cons, ih2, hM]
      by_cases hfe : (xs.filter fun y =>
          decide (y.temp = (xs.map climate_info.temp).foldl min (updateInfo s x).min_temp)) = []
      · by_cases hx : x.temp = (xs.map climate_info.temp).foldl min (updateInfo s x).min_temp
        · have hfc : ((x :: xs).filter fun y =>
              decide (y.temp = (xs.map climate_info.temp).foldl min (updateInfo s x).min_temp))
              = [x] := by
            rw [List.filter_cons]
            simp [hx, hfe]
          rw [hfe, hfc]
          have hle : x.temp ≤ s.min_temp := by
            have h1 : (xs.map climate_info.temp).foldl min (updateInfo s x).min_temp
                ≤ (updateInfo s x).min_temp :=
              foldl_min_le _ _
            have h2 : (updateInfo s x).min_temp ≤ s.min_temp := by
              rw [hmn]; exact min_le_left _ _
            exact le_trans (le_of_eq hx) (le_trans h1 h2)
          have hdate : (updateInfo s x).min_temp_date = x.min_temp_date := by
            rw [updateInfo_min_temp_date, if_pos hle]
          simp [hdate]
        · have hfc : ((x :: xs).filter fun y =>
              decide (y.temp = (xs.map climate_info.temp).foldl min (updateInfo s x).min_temp))
              = [] := by
            rw [List.filter_cons]
            simp [hx, hfe]
          rw [hfe, hfc]
          have hnle : ¬ s.min_temp ≥ x.temp := by
            intro hge
            rcases foldl_min_attained (xs.map climate_info.temp)
                ((updateInfo s x).min_temp) with h | h
            · apply hx
              rw [h, hmn, min_eq_right hge]
            · obtain ⟨y, hy, hyt⟩ := List.mem_map.mp h
              have := List.filter_eq_nil_iff.mp hfe y hy
              simp [hyt] at this
          have hdate : (updateInfo s x).min_temp_date = s.min_temp_date := by
            rw [updateInfo_min_temp_date, if_neg hnle]
          simp [hdate]
      · by_cases hx : x.temp = (xs.map climate_info.temp).foldl min (updateInfo s x).min_temp
        · have hfc : ((x :: xs).filter fun y =>
              decide (y.temp = (xs.map climate_info.temp).foldl min (updateInfo s x).min_temp))
              = x :: (xs.filter fun y =>
                decide (y.temp = (xs.map climate_info.temp).foldl min (updateInfo s x).min_temp)) := by
            rw [List.filter_cons]
            simp [hx]
          rw [hfc, elim_getLast?_cons_of_ne_nil _ hfe]
          exact getLast?_elim_irrel hfe _ _ _
        · have hfc : ((x :: xs).filter fun y =>
              decide (y.temp = (xs.map climate_info.temp).foldl min (updateInfo s x).min_temp))
              = (xs.filter fun y =>
                decide (y.temp = (xs.map climate_info.temp).foldl min (updateInfo s x).min_temp)) := by
            rw [List.filter_cons]
            simp [hx]
          rw [hfc]
          exact getLast?_elim_irrel hfe _ _ _

theorem maxTempOf_def (r : climate_info) (rs : List climate_info) :
    maxTempOf r rs = (rs.map climate_info.temp).foldl max r.temp := rfl

theorem minTempOf_def (r : climate_info) (rs : List climate_info) :
    minTempOf r rs = (rs.map climate_info.temp).foldl min r.temp := rfl

/-- C1: folding records into an accumulator whose max_temp equals its own
temperature (as analyze_file initializes it) leaves max_temp equal to the
maximum temperature over all folded records, and max_temp_date equal to the
timestamp of the last record attaining that maximum (ties included, since
the source comparison on line 185 is non-strict). -/
theorem analyze_file_max_temp_correct (r : climate_info) (rs : List climate_info)
    (h : r.max_temp = r.temp) :
    (foldInfo r rs).max_temp = maxTempOf r rs ∧
    some ((foldInfo r rs).max_temp_date) = lastMaxTs r rs := by
  obtain ⟨h1, h2⟩ := foldl_updateInfo_max rs r
  have hMe : (rs.map climate_info.temp).foldl max r.max_temp = maxTempOf r rs := by
    rw [h, maxTempOf_def]
  constructor
  · rw [foldInfo, h1, hMe]
  · rw [foldInfo, h2, hMe, lastMaxTs]
    by_cases hfe : (rs.filter fun y => decide (y.temp = maxTempOf r rs)) = []
    · have hr : r.temp = maxTempOf r rs := by
        rcases foldl_max_attained (rs.map climate_info.temp) r.temp with hh | hh
        · rw [maxTempOf_def, hh]
        · exfalso
          obtain ⟨y, hy, hyt⟩ := List.mem_map.mp hh
          have := List.filter_eq_nil_iff.mp hfe y hy
          rw [← maxTempOf_def] at hyt
          simp [hyt] at this
      have hfc : ((r :: rs).filter fun y => decide (y.temp = maxTempOf r rs))
          = [r] := by
        rw [List.filter_cons]
        simp [hr, hfe]
      rw [hfe, hfc]
      simp
    · obtain ⟨z, zs, hzzs⟩ := List.exists_cons_of_ne_nil hfe
      by_cases hr : r.temp = maxTempOf r rs
      · have hfc : ((r :: rs).filter fun y => decide (y.temp = maxTempOf r rs))
            = r :: (rs.filter fun y => decide (y.temp = maxTempOf r rs)) := by
          rw [List.filter_cons]
          simp [hr]
        rw [hfc, hzzs, List.getLast?_cons_cons,
          List.getLast?_eq_getLast_of_ne_nil (List.cons_ne_nil z zs)]
        rfl
      · have hfc : ((r :: rs).filter fun y => decide (y.temp = maxTempOf r rs))
            = (rs.filter fun y => decide (y.temp = maxTempOf r rs)) := by
          rw [List.filter_cons]
          simp [hr]
        rw [hfc, hzzs,
          List.getLast?_eq_getLast_of_ne_nil (List.cons_ne_nil z zs)]
        rfl

/-- C4: folding records into an accumulator whose min_temp equals its own
temperature (as analyze_file initializes it) leaves min_temp equal to the
minimum temperature over all folded records, and min_temp_date equal to the
timestamp of the last record attaining that minimum (ties included, since
the source comparison on line 191 is non-strict). -/
theorem analyze_file_min_temp_correct (r : climate_info) (rs : List climate_info)
    (h : r.min_temp = r.temp) :
    (foldInfo r rs).min_temp = minTempOf r rs ∧
    some ((foldInfo r rs).min_temp_date) = lastMinTs r rs := by
  obtain ⟨h1, h2⟩ := foldl_updateInfo_min rs r
  have hMe : (rs.map climate_info.temp).foldl min r.min_temp = minTempOf r rs := by
    rw [h, minTempOf_def]
  constructor
  · rw [foldInfo, h1, hMe]
  · rw [foldInfo, h2, hMe, lastMinTs]
    by_cases hfe : (rs.filter fun y => decide (y.temp = minTempOf r rs)) = []
    · have hr : r.temp = minTempOf r rs := by
        rcases foldl_min_attained (rs.map climate_info.temp) r.temp with hh | hh
        · rw [minTempOf_def, hh]
        · exfalso
          obtain ⟨y, hy, hyt⟩ := List.mem_map.mp hh
          have := List.filter_eq_nil_iff.mp hfe y hy
          rw [← minTempOf_def] at hyt
          simp [hyt] at this
      have hfc : ((r :: rs).filter fun y => decide (y.temp = minTempOf r rs))
          = [r] := by
        rw [List.filter_cons]
        simp [hr, hfe]
      rw [hfe, hfc]
      simp
    · obtain ⟨z, zs, hzzs⟩ := List.exists_cons_of_ne_nil hfe
      by_cases hr : r.temp = minTempOf r rs
      · have hfc : ((r :: rs).filter fun y => decide (y.temp = minTempOf r rs))
            = r :: (rs.filter fun y => decide (y.temp = minTempOf r rs)) := by
          rw [List.filter_cons]
          simp [hr]
        rw [hfc, hzzs, List.getLast?_cons_cons,
          List.getLast?_eq_getLast_of_ne_nil (List.cons_ne_nil z zs)]
        rfl
      · have hfc : ((r :: rs).filter fun y => decide (y.temp = minTempOf r rs))
            = (rs.filter fun y => decide (y.temp = minTempOf r rs)) := by
          rw [List.filter_cons]
          simp [hr]
        rw [hfc, hzzs,
          List.getLast?_eq_getLast_of_ne_nil (List.cons_ne_nil z zs)]
        rfl

/-- The first example record of the specification (section 8): a CA line
whose temperature is 300 Kelvin. -/
def rowCA1 : climate_info :=
  mkState (collectTokens "CA\t1000000\tgh1\t50\t0\t10\t0\t101325\t300.0")

/-- The second example record of the specification (section 8): a CA line
with the same temperature and a later timestamp. -/
def rowCA2 : climate_info :=
  mkState (collectTokens "CA\t2000000\tgh2\t60\t0\t20\t1\t101300\t300.0")

/-- Witness for C1 at the example records of the specification. -/
theorem analyze_file_max_temp_correct_witness :
    rowCA1.max_temp = rowCA1.temp ∧
    ((foldInfo rowCA1 [rowCA2]).max_temp = maxTempOf rowCA1 [rowCA2] ∧
      some ((foldInfo rowCA1 [rowCA2]).max_temp_date) = lastMaxTs rowCA1 [rowCA2]) :=
  ⟨rfl, analyze_file_max_temp_correct rowCA1 [rowCA2] rfl⟩

/-- Witness for C4 at the example records of the specification. -/
theorem analyze_file_min_temp_correct_witness :
    rowCA1.min_temp = rowCA1.temp ∧
    ((foldInfo rowCA1 [rowCA2]).min_temp = minTempOf rowCA1 [rowCA2] ∧
      some ((foldInfo rowCA1 [rowCA2]).min_temp_date) = lastMinTs rowCA1 [rowCA2]) :=
  ⟨rfl, analyze_file_min_temp_correct rowCA1 [rowCA2] rfl⟩

theorem foldInfo_num_records (r : climate_info) (rs : List climate_info) :
    (foldInfo r rs).num_records = r.num_records + rs.length := by
  rw [foldInfo]
  induction rs generalizing r with
  | nil => simp
  | cons x xs ih =>
    rw [List.foldl_cons, ih, updateInfo_num_records, List.length_cons]
    omega

/-- C6: for a well-formed token list, the decoded record's temperature is
the Kelvin value of field 8 converted by F = K*9/5 - 459.67 (the constant
written as the exact rational 45967/100), max_temp and min_temp are that
same single value, and the accumulator update uses exactly this temp field
for the running temperature sum and for both extremum comparisons. -/
theorem record_temp_conversion (ts : List String) (h : 9 ≤ ts.length) :
    decodeTokens ts = some (mkState ts) ∧
    (mkState ts).temp = atofQ (ts.getD 8 "") * 9 / 5 - 45967 / 100 ∧
    (mkState ts).max_temp = (mkState ts).temp ∧
    (mkState ts).min_temp = (mkState ts).temp ∧
    ∀ s : climate_info,
      (updateInfo s (mkState ts)).temp = s.temp + (mkState ts).temp ∧
      (updateInfo s (mkState ts)).max_temp = max s.max_temp (mkState ts).temp ∧
      (updateInfo s (mkState ts)).min_temp = min s.min_temp (mkState ts).temp := by
  refine ⟨?_, rfl, rfl, rfl, fun s =>
    ⟨updateInfo_temp s _, updateInfo_max_temp_eq_max s _, updateInfo_min_temp_eq_min s _⟩⟩
  rw [decodeTokens, if_neg (by omega)]

/-- Witness for C6 at a concrete nine-field row. -/
theorem record_temp_conversion_witness :
    9 ≤ (mkRow "CA").length ∧
    (decodeTokens (mkRow "CA") = some (mkState (mkRow "CA")) ∧
      (mkState (mkRow "CA")).temp = atofQ ((mkRow "CA").getD 8 "") * 9 / 5 - 45967 / 100 ∧
      (mkState (mkRow "CA")).max_temp = (mkState (mkRow "CA")).temp ∧
      (mkState (mkRow "CA")).min_temp = (mkState (mkRow "CA")).temp ∧
      ∀ s : climate_info,
        (updateInfo s (mkState (mkRow "CA"))).temp = s.temp + (mkState (mkRow "CA")).temp ∧
        (updateInfo s (mkState (mkRow "CA"))).max_temp
          = max s.max_temp (mkState (mkRow "CA")).temp ∧
        (updateInfo s (mkState (mkRow "CA"))).min_temp
          = min s.min_temp (mkState (mkRow "CA")).temp) :=
  ⟨by decide, record_temp_conversion (mkRow "CA") (by decide)⟩

/-- C8: for any accumulator built by analyze_file (initial record count 1),
each average printed by print_report times the record count equals the
corresponding running sum, exactly in the rational model. -/
theorem report_average_consistent (r : climate_info) (rs : List climate_info)
    (h : r.num_records = 1) :
    (reportOf (foldInfo r rs)).avg_humidity * ((foldInfo r rs).num_records : ℚ)
      = (foldInfo r rs).humidity ∧
    (reportOf (foldInfo r rs)).avg_temp * ((foldInfo r rs).num_records : ℚ)
      = (foldInfo r rs).temp ∧
    (reportOf (foldInfo r rs)).avg_cloud_cover * ((foldInfo r rs).num_records : ℚ)
      = (foldInfo r rs).cloud_cover := by
  have hn : (foldInfo r rs).num_records ≠ 0 := by
    rw [foldInfo_num_records, h]; omega
  have hq : (((foldInfo r rs).num_records : ℚ)) ≠ 0 := Nat.cast_ne_zero.mpr hn
  refine ⟨?_, ?_, ?_⟩ <;>
    · simp only [reportOf]
      exact div_mul_cancel₀ _ hq

/-- Witness for C8 at concrete records. -/
theorem report_average_consistent_witness :
    (mkState (mkRow "CA")).num_records = 1 ∧
    ((reportOf (foldInfo (mkState (mkRow "CA")) [rowCA2])).avg_humidity
        * ((foldInfo (mkState (mkRow "CA")) [rowCA2]).num_records : ℚ)
      = (foldInfo (mkState (mkRow "CA")) [rowCA2]).humidity ∧
    (reportOf (foldInfo (mkState (mkRow "CA")) [rowCA2])).avg_temp
        * ((foldInfo (mkState (mkRow "CA")) [rowCA2]).num_records : ℚ)
      = (foldInfo (mkState (mkRow "CA")) [rowCA2]).temp ∧
    (reportOf (foldInfo (mkState (mkRow "CA")) [rowCA2])).avg_cloud_cover
        * ((foldInfo (mkState (mkRow "CA")) [rowCA2]).num_records : ℚ)
      = (foldInfo (mkState (mkRow "CA")) [rowCA2]).cloud_cover) :=
  ⟨rfl, report_average_consistent (mkState (mkRow "CA")) [rowCA2] rfl⟩

/-- C9 counterexample: folding a record with pressure 5 into an accumulator
with pressure 0 changes the accumulator's pressure field (line 181 of the
source sums it), refuting that pressure is not folded into accumulator
state. -/
theorem pressure_not_aggregated_cex :
    (updateInfo (mkState (mkRow "AA"))
        (mkState ["AA", "0", "g", "0", "0", "0", "0", "5", "0"])).pressure
      ≠ (mkState (mkRow "AA")).pressure := by
  with_unfolding_all decide

/-- C9 amended: pressure (field 7) is decoded into the record, and consuming
a record into an existing accumulator adds it to the accumulator's pressure
field, but the report values of print_report do not depend on the pressure
field. -/
theorem pressure_decoded_summed_unreported (ts : List String) (s : climate_info)
    (p : ℚ) (h : 9 ≤ ts.length) :
    decodeTokens ts = some (mkState ts) ∧
    (mkState ts).pressure = atofQ (ts.getD 7 "") ∧
    (updateInfo s (mkState ts)).pressure = s.pressure + (mkState ts).pressure ∧
    reportOf { s with pressure := p } = reportOf s :=
  ⟨by rw [decodeTokens, if_neg (by omega)], rfl, updateInfo_pressure s _, rfl⟩

/-- Witness for the amended C9 at concrete values. -/
theorem pressure_decoded_summed_unreported_witness :
    9 ≤ (mkRow "CA").length ∧
    (decodeTokens (mkRow "CA") = some (mkState (mkRow "CA")) ∧
      (mkState (mkRow "CA")).pressure = atofQ ((mkRow "CA").getD 7 "") ∧
      (updateInfo rowCA1 (mkState (mkRow "CA"))).pressure
        = rowCA1.pressure + (mkState (mkRow "CA")).pressure ∧
      reportOf { rowCA1 with pressure := 7 } = reportOf rowCA1) :=
  ⟨by decide, pressure_decoded_summed_unreported (mkRow "CA") rowCA1 7 (by decide)⟩

/-- C10: on a line with more than nine fields the collection loop keeps
exactly the first nine tokens, the line is decoded without error from those
nine fields, and any line with the same first nine tokens decodes to the
same record, so fields past the ninth are ignored. -/
theorem tokenizer_truncates_to_nine (line : String) (h : 9 < (splitTDV line).length) :
    collectTokens line = (splitTDV line).take 9 ∧
    decodeLine line = some (mkState ((splitTDV line).take 9)) ∧
    ∀ l2 : String, (splitTDV l2).take 9 = (splitTDV line).take 9 →
      decodeLine l2 = decodeLine line := by
  have hdec : decodeLine line = some (mkState ((splitTDV line).take 9)) := by
    rw [decodeLine, decodeTokens, collectTokens,
      if_neg (by rw [List.length_take]; omega)]
  refine ⟨rfl, hdec, ?_⟩
  intro l2 h2
  have e2 : collectTokens l2 = (splitTDV line).take 9 := by
    rw [collectTokens, h2]
  rw [decodeLine, decodeTokens, e2, if_neg (by rw [List.length_take]; omega), hdec]

/-- Witness for C10 at a ten-field line. -/
theorem tokenizer_truncates_to_nine_witness :
    9 < (splitTDV "AA\t1\tg\t2\t0\t3\t0\t4\t5\t6\n").length ∧
    (collectTokens "AA\t1\tg\t2\t0\t3\t0\t4\t5\t6\n"
        = (splitTDV "AA\t1\tg\t2\t0\t3\t0\t4\t5\t6\n").take 9 ∧
      decodeLine "AA\t1\tg\t2\t0\t3\t0\t4\t5\t6\n"
        = some (mkState ((splitTDV "AA\t1\tg\t2\t0\t3\t0\t4\t5\t6\n").take 9)) ∧
      ∀ l2 : String,
        (splitTDV l2).take 9 = (splitTDV "AA\t1\tg\t2\t0\t3\t0\t4\t5\t6\n").take 9 →
          decodeLine l2 = decodeLine "AA\t1\tg\t2\t0\t3\t0\t4\t5\t6\n") :=
  ⟨by decide, tokenizer_truncates_to_nine "AA\t1\tg\t2\t0\t3\t0\t4\t5\t6\n" (by decide)⟩

/-- C2 (evaluation of the code at the failing input): a two-field line
tokenizes to fewer than nine tokens, and processing it reaches the
out-of-bounds tokenList reads of lines 152-162, modelled as none; the
source does not skip such a line. -/
theorem short_line_reads_out_of_bounds :
    splitTDV "CA\t1000\n" = ["CA", "1000"] ∧
    (collectTokens "CA\t1000\n").length < 9 ∧
    decodeLine "CA\t1000\n" = none ∧
    consumeLine initStates "CA\t1000\n" = none := by
  refine ⟨by decide, by decide, by decide, by decide⟩

/-- C3 (evaluation of the code at the failing input): with fifty-one records
of pairwise distinct state codes, the fixed fifty-slot table keeps exactly
the first fifty codes and the fifty-first code BY is silently absent. -/
theorem state_table_caps_at_fifty :
    statesCodes (runRecords recs51) = codes51.take 50 ∧
    "BY" ∈ codes51 ∧
    "BY" ∉ statesCodes (runRecords recs51) := by
  refine ⟨by decide, by decide, by decide⟩

/-! ### Insertion-loop and discovery-order lemmas -/

theorem insertRecord_none_cons (rest : List (Option climate_info)) (r : climate_info) :
    insertRecord (none :: rest) r = some r :: rest := rfl

theorem insertRecord_some_cons (s : climate_info) (rest : List (Option climate_info))
    (r : climate_info) :
    insertRecord (some s :: rest) r =
      if s.code = r.code then some (updateInfo s r) :: rest
      else some s :: insertRecord rest r := rfl

theorem insertRecord_new (accs : List climate_info) (rest : List (Option climate_info))
    (r : climate_info) (h : ∀ a ∈ accs, a.code ≠ r.code) :
    insertRecord (accs.map some ++ none :: rest) r = accs.map some ++ some r :: rest := by
  induction accs with
  | nil => rfl
  | cons a as ih =>
    have hne : ¬ a.code = r.code := h a (List.mem_cons_self a as)
    rw [List.map_cons, List.cons_append, insertRecord_some_cons, if_neg hne,
      ih (fun b hb => h b (List.mem_cons_of_mem a hb)), List.cons_append]

theorem insertRecord_full (accs : List climate_info) (r : climate_info)
    (h : ∀ a ∈ accs, a.code ≠ r.code) :
    insertRecord (accs.map some) r = accs.map some := by
  induction accs with
  | nil => rfl
  | cons a as ih =>
    have hne : ¬ a.code = r.code := h a (List.mem_cons_self a as)
    rw [List.map_cons, insertRecord_some_cons, if_neg hne,
      ih (fun b hb => h b (List.mem_cons_of_mem a hb))]

theorem insertRecord_existing (accs : List climate_info) (tail : List (Option climate_info))
    (r : climate_info) (h : r.code ∈ accs.map climate_info.code) :
    ∃ accs2 : List climate_info,
      insertRecord (accs.map some ++ tail) r = accs2.map some ++ tail ∧
      accs2.map climate_info.code = accs.map climate_info.code := by
  induction accs with
  | nil => simp at h
  | cons a as ih =>
    by_cases hc : a.code = r.code
    · refine ⟨updateInfo a r :: as, ?_, ?_⟩
      · rw [List.map_cons, List.cons_append, insertRecord_some_cons, if_pos hc,
          List.map_cons, List.cons_append]
      · simp [updateInfo_code]
    · have h2 : r.code ∈ as.map climate_info.code := by
        simp only [List.map_cons, List.mem_cons] at h
        rcases h with h | h
        · exact absurd h.symm hc
        · exact h
      obtain ⟨accs2, he, hcodes⟩ := ih h2
      refine ⟨a :: accs2, ?_, ?_⟩
      · rw [List.map_cons, List.cons_append, insertRecord_some_cons, if_neg hc, he,
          List.map_cons, List.cons_append]
      · simp [hcodes]

theorem firstSeenAux_nil (seen : List String) : firstSeenAux seen [] = [] := rfl

theorem firstSeenAux_cons (seen : List String) (c : String) (cs : List String) :
    firstSeenAux seen (c :: cs) =
      if c ∈ seen then firstSeenAux seen cs else c :: firstSeenAux (c :: seen) cs := rfl

theorem firstSeenAux_append_singleton (c : String) : ∀ (l seen : List String),
    firstSeenAux seen (l ++ [c]) =
      if c ∈ seen ∨ c ∈ firstSeenAux seen l then firstSeenAux seen l
      else firstSeenAux seen l ++ [c] := by
  intro l
  induction l with
  | nil =>
    intro seen
    simp only [List.nil_append, firstSeenAux_cons, firstSeenAux_nil]
    by_cases hc : c ∈ seen
    · rw [if_pos hc, if_pos (Or.inl hc)]
    · rw [if_neg hc, if_neg (by simp [hc])]
  | cons a l ih =>
    intro seen
    have hL : firstSeenAux seen ((a :: l) ++ [c]) =
        if a ∈ seen then firstSeenAux seen (l ++ [c])
        else a :: firstSeenAux (a :: seen) (l ++ [c]) := by
      rw [List.cons_append, firstSeenAux_cons]
    rw [hL, firstSeenAux_cons]
    by_cases ha : a ∈ seen
    · rw [if_pos ha, if_pos ha, ih seen]
    · rw [if_neg ha, if_neg ha, ih (a :: seen)]
      by_cases hcc : c ∈ seen ∨ c ∈ a :: firstSeenAux (a :: seen) l
      · rw [if_pos hcc]
        have hin : c ∈ a :: seen ∨ c ∈ firstSeenAux (a :: seen) l := by
          rcases hcc with h | h
          · exact Or.inl (List.mem_cons_of_mem a h)
          · rcases List.mem_cons.mp h with rfl | h
            · exact Or.inl (List.mem_cons_self _ _)
            · exact Or.inr h
        rw [if_pos hin]
      · rw [if_neg hcc]
        have hout : ¬ (c ∈ a :: seen ∨ c ∈ firstSeenAux (a :: seen) l) := by
          rintro (h | h)
          · rcases List.mem_cons.mp h with rfl | h
            · exact hcc (Or.inr (List.mem_cons_self _ _))
            · exact hcc (Or.inl h)
          · exact hcc (Or.inr (List.mem_cons_of_mem a h))
        rw [if_neg hout]
        simp

theorem firstSeen_append_singleton (l : List String) (c : String) :
    firstSeen (l ++ [c]) =
      if c ∈ firstSeen l then firstSeen l else firstSeen l ++ [c] := by
  rw [firstSeen, firstSeenAux_append_singleton]
  simp [firstSeen]

theorem statesCodes_shape (accs : List climate_info) (k : Nat) :
    statesCodes (accs.map some ++ List.replicate k none) = accs.map climate_info.code := by
  rw [statesCodes, List.filterMap_append]
  have h1 : (accs.map some).filterMap (fun o => o.map climate_info.code)
      = accs.map climate_info.code := by
    induction accs with
    | nil => rfl
    | cons a as ih => simp [List.filterMap_cons, ih]
  have h2 : (List.replicate k (none : Option climate_info)).filterMap
      (fun o => o.map climate_info.code) = [] := by
    induction k with
    | zero => rfl
    | succ n ih => simp [List.replicate_succ, List.filterMap_cons, ih]
  rw [h1, h2, List.append_nil]

theorem runRecords_shape (recs : List climate_info) :
    ∃ accs : List climate_info,
      runRecords recs = accs.map some ++ List.replicate (NUM_STATES - accs.length) none ∧
      accs.map climate_info.code = (firstSeen (recs.map climate_info.code)).take NUM_STATES ∧
      accs.length ≤ NUM_STATES := by
  induction recs using List.reverseRecOn with
  | nil =>
    refine ⟨[], ?_, ?_, ?_⟩
    · simp [runRecords, initStates]
    · simp [firstSeen, firstSeenAux_nil]
    · simp
  | append_singleton l r ih =>
    obtain ⟨accs, hsh, hcodes, hlen⟩ := ih
    have hrun : runRecords (l ++ [r]) = insertRecord (runRecords l) r := by
      rw [runRecords, runRecords, List.foldl_append, List.foldl_cons, List.foldl_nil]
    have hmapapp : (l ++ [r]).map climate_info.code
        = l.map climate_info.code ++ [r.code] := by simp
    have hcod_len := congrArg List.length hcodes
    rw [List.length_map, List.length_take] at hcod_len
    by_cases hmem : r.code ∈ accs.map climate_info.code
    · obtain ⟨accs2, he, hc2⟩ := insertRecord_existing accs _ r hmem
      have hlen2 : accs2.length = accs.length := by
        have h3 := congrArg List.length hc2
        simpa using h3
      refine ⟨accs2, ?_, ?_, ?_⟩
      · rw [hrun, hsh, he, hlen2]
      · have hcfs : r.code ∈ firstSeen (l.map climate_info.code) := by
          have h4 : r.code ∈ (firstSeen (l.map climate_info.code)).take NUM_STATES := by
            rw [← hcodes]; exact hmem
          exact List.mem_of_mem_take h4
        rw [hc2, hcodes, hmapapp, firstSeen_append_singleton, if_pos hcfs]
      · rw [hlen2]; exact hlen
    · have hne : ∀ a ∈ accs, a.code ≠ r.code := by
        intro a ha hac
        exact hmem (hac ▸ List.mem_map_of_mem climate_info.code ha)
      by_cases hfull : accs.length < NUM_STATES
      · have hfslen : (firstSeen (l.map climate_info.code)).length = accs.length := by
          omega
        have hfseq : firstSeen (l.map climate_info.code) = accs.map climate_info.code := by
          rw [hcodes, List.take_of_length_le (by omega)]
        have hcnotin : r.code ∉ firstSeen (l.map climate_info.code) := by
          rw [hfseq]; exact hmem
        have hrep : List.replicate (NUM_STATES - accs.length) (none : Option climate_info)
            = none :: List.replicate (NUM_STATES - (accs.length + 1)) none := by
          have h5 : NUM_STATES - accs.length = (NUM_STATES - (accs.length + 1)) + 1 := by
            omega
          rw [h5, List.replicate_succ]
        refine ⟨accs ++ [r], ?_, ?_, ?_⟩
        · rw [hrun, hsh, hrep, insertRecord_new accs _ r hne, List.map_append,
            List.length_append]
          simp [List.append_assoc]
        · rw [List.map_append, hmapapp, firstSeen_append_singleton, if_neg hcnotin, hfseq]
          rw [List.take_of_length_le
            (by rw [List.length_append, List.length_map]; simp; omega)]
          simp
        · rw [List.length_append]; simp; omega
      · have hlen50 : accs.length = NUM_STATES := by omega
        have hge : NUM_STATES ≤ (firstSeen (l.map climate_info.code)).length := by omega
        refine ⟨accs, ?_, hcodes.trans ?_, hlen⟩
        · rw [hrun, hsh, hlen50]
          simp only [Nat.sub_self, List.replicate_zero, List.append_nil]
          rw [insertRecord_full accs r hne]
        · rw [hmapapp, firstSeen_append_singleton]
          by_cases hcfs : r.code ∈ firstSeen (l.map climate_info.code)
          · rw [if_pos hcfs]
          · rw [if_neg hcfs, List.take_append_of_le_length hge]

theorem analyzeLines_decodeAll (lines : List String) :
    ∀ (sts : List (Option climate_info)) (recs : List climate_info),
      decodeAll lines = some recs →
      analyzeLines sts lines = some (recs.foldl insertRecord sts) := by
  induction lines with
  | nil =>
    intro sts recs h
    obtain rfl : recs = [] := by simpa [decodeAll] using h.symm
    rfl
  | cons l ls ih =>
    intro sts recs h
    cases hd : decodeLine l with
    | none =>
      rw [decodeAll, hd] at h
      simp at h
    | some r =>
      cases ha : decodeAll ls with
      | none =>
        rw [decodeAll, hd, ha] at h
        simp at h
      | some rs =>
        rw [decodeAll, hd, ha] at h
        simp only [Option.some.injEq] at h
        subst h
        rw [analyzeLines, consumeLine, hd]
        show analyzeLines (insertRecord sts r) ls = _
        rw [ih (insertRecord sts r) rs ha, List.foldl_cons]

/-- C5: when every line of the input files decodes (in argument order, files
flattened to one line stream), the run produces exactly the fold of the
decoded records, and the codes present in the states array, in slot order,
are the first-seen distinct codes of the record stream, truncated to the
table capacity; hence each stored state's position is its discovery rank
and later records never reorder existing entries. -/
theorem discovery_order (files : List (List String)) (recs : List climate_info)
    (h : decodeAll files.flatten = some recs) :
    analyzeFiles files = some (runRecords recs) ∧
    statesCodes (runRecords recs)
      = (firstSeen (recs.map climate_info.code)).take NUM_STATES := by
  constructor
  · rw [analyzeFiles, analyzeLines_decodeAll files.flatten initStates recs h, runRecords]
  · obtain ⟨accs, hsh, hcodes, _⟩ := runRecords_shape recs
    rw [hsh, statesCodes_shape, hcodes]

/-- Witness for C5 at the two-file example of the specification: a WA file
followed by a TN file yields discovery order WA before TN. -/
theorem discovery_order_witness :
    decodeAll (List.flatten [["WA\t1\tg\t50\t0\t10\t0\t100\t300.0"],
        ["TN\t2\tg\t60\t0\t20\t1\t100\t300.0"]])
      = some [mkState (collectTokens "WA\t1\tg\t50\t0\t10\t0\t100\t300.0"),
          mkState (collectTokens "TN\t2\tg\t60\t0\t20\t1\t100\t300.0")] ∧
    (analyzeFiles [["WA\t1\tg\t50\t0\t10\t0\t100\t300.0"],
        ["TN\t2\tg\t60\t0\t20\t1\t100\t300.0"]]
      = some (runRecords [mkState (collectTokens "WA\t1\tg\t50\t0\t10\t0\t100\t300.0"),
          mkState (collectTokens "TN\t2\tg\t60\t0\t20\t1\t100\t300.0")]) ∧
    statesCodes (runRecords [mkState (collectTokens "WA\t1\tg\t50\t0\t10\t0\t100\t300.0"),
          mkState (collectTokens "TN\t2\tg\t60\t0\t20\t1\t100\t300.0")])
      = (firstSeen ([mkState (collectTokens "WA\t1\tg\t50\t0\t10\t0\t100\t300.0"),
          mkState (collectTokens "TN\t2\tg\t60\t0\t20\t1\t100\t300.0")].map
            climate_info.code)).take NUM_STATES) :=
  ⟨rfl, discovery_order [["WA\t1\tg\t50\t0\t10\t0\t100\t300.0"],
    ["TN\t2\tg\t60\t0\t20\t1\t100\t300.0"]] _ rfl⟩

/-- C7: when the record's code has no accumulator and the states array still
has an empty slot, the insertion loop installs the freshly built record in
the first empty slot, directly after all existing accumulators, and that
record is initialized with count 1, the line's single values as sums, the
temperature as both extrema, and the timestamp as both extremum dates. -/
theorem consume_creates_accumulator (accs : List climate_info) (k : Nat)
    (ts : List String) (hk : 0 < k)
    (hc : (mkState ts).code ∉ accs.map climate_info.code) :
    insertRecord (accs.map some ++ List.replicate k none) (mkState ts)
        = accs.map some ++ some (mkState ts) :: List.replicate (k - 1) none ∧
    (mkState ts).num_records = 1 ∧
    (mkState ts).humidity = atofQ (ts.getD 3 "") ∧
    (mkState ts).cloud_cover = atofQ (ts.getD 5 "") ∧
    (mkState ts).snow = ratTrunc (atofQ (ts.getD 4 "")) ∧
    (mkState ts).lightning_strikes = ratTrunc (atofQ (ts.getD 6 "")) ∧
    (mkState ts).temp = atofQ (ts.getD 8 "") * 9 / 5 - 45967 / 100 ∧
    (mkState ts).max_temp = (mkState ts).temp ∧
    (mkState ts).min_temp = (mkState ts).temp ∧
    (mkState ts).max_temp_date = ratTrunc (atofQ (ts.getD 1 "") / 1000) ∧
    (mkState ts).min_temp_date = (mkState ts).max_temp_date := by
  refine ⟨?_, rfl, rfl, rfl, rfl, rfl, rfl, rfl, rfl, rfl, rfl⟩
  have hne : ∀ a ∈ accs, a.code ≠ (mkState ts).code := fun a ha hac =>
    hc (hac ▸ List.mem_map_of_mem climate_info.code ha)
  obtain ⟨k2, rfl⟩ : ∃ k2, k = k2 + 1 := ⟨k - 1, by omega⟩
  rw [List.replicate_succ, insertRecord_new accs _ _ hne]
  simp

/-- C7 counterexample: with all fifty slots already holding other codes,
consuming a record whose code BY has no accumulator creates nothing: the
states array is unchanged and no accumulator for BY exists afterwards. -/
theorem consume_creates_accumulator_cex :
    (mkState (mkRow "BY")).code ∉ statesCodes (runRecords recs50) ∧
    insertRecord (runRecords recs50) (mkState (mkRow "BY")) = runRecords recs50 ∧
    (mkState (mkRow "BY")).code
      ∉ statesCodes (insertRecord (runRecords recs50) (mkState (mkRow "BY"))) := by
  obtain ⟨accs, hsh, hcodes, hlen⟩ := runRecords_shape recs50
  have hsc : statesCodes (runRecords recs50) = codes51.take 50 := by decide
  have haccs : accs.map climate_info.code = codes51.take 50 := by
    rw [← statesCodes_shape accs (NUM_STATES - accs.length), ← hsh, hsc]
  have htl : (codes51.take 50).length = 50 := by decide
  have hlen50 : accs.length = 50 := by
    have h6 := congrArg List.length haccs
    rw [List.length_map, htl] at h6
    exact h6
  have hfullshape : runRecords recs50 = accs.map some := by
    rw [hsh, hlen50]
    show List.map some accs ++ List.replicate (NUM_STATES - 50) none = List.map some accs
    simp [NUM_STATES]
  have hby : (mkState (mkRow "BY")).code ∉ codes51.take 50 := by decide
  have hne : ∀ a ∈ accs, a.code ≠ (mkState (mkRow "BY")).code := by
    intro a ha hac
    exact hby (hac ▸ haccs ▸ List.mem_map_of_mem climate_info.code ha)
  have hunch : insertRecord (runRecords recs50) (mkState (mkRow "BY")) = runRecords recs50 := by
    rw [hfullshape, insertRecord_full accs _ hne]
  refine ⟨?_, hunch, ?_⟩
  · rw [hsc]; exact hby
  · rw [hunch, hsc]; exact hby

/-- Witness for C7 at a one-accumulator array with forty-nine free slots. -/
theorem consume_creates_accumulator_witness :
    0 < 49 ∧
    (mkState (mkRow "AB")).code ∉ ([mkState (mkRow "AA")].map climate_info.code) ∧
    (insertRecord ([mkState (mkRow "AA")].map some ++ List.replicate 49 none)
          (mkState (mkRow "AB"))
        = [mkState (mkRow "AA")].map some
            ++ some (mkState (mkRow "AB")) :: List.replicate (49 - 1) none ∧
      (mkState (mkRow "AB")).num_records = 1 ∧
      (mkState (mkRow "AB")).humidity = atofQ ((mkRow "AB").getD 3 "") ∧
      (mkState (mkRow "AB")).cloud_cover = atofQ ((mkRow "AB").getD 5 "") ∧
      (mkState (mkRow "AB")).snow = ratTrunc (atofQ ((mkRow "AB").getD 4 "")) ∧
      (mkState (mkRow "AB")).lightning_strikes
        = ratTrunc (atofQ ((mkRow "AB").getD 6 "")) ∧
      (mkState (mkRow "AB")).temp
        = atofQ ((mkRow "AB").getD 8 "") * 9 / 5 - 45967 / 100 ∧
      (mkState (mkRow "AB")).max_temp = (mkState (mkRow "AB")).temp ∧
      (mkState (mkRow "AB")).min_temp = (mkState (mkRow "AB")).temp ∧
      (mkState (mkRow "AB")).max_temp_date
        = ratTrunc (atofQ ((mkRow "AB").getD 1 "") / 1000) ∧
      (mkState (mkRow "AB")).min_temp_date = (mkState (mkRow "AB")).max_temp_date) :=
  ⟨by decide, by decide,
    consume_creates_accumulator [mkState (mkRow "AA")] 49 (mkRow "AB")
      (by decide) (by decide)⟩
